import Mathlib

/-!
Shallow embedding of the `ord` block-explorer serving layer
(`src/subcommand/server.rs` and `src/templates/home.rs`).

Rust strings are modelled as `List Char`; `Rust`'s `str::len` (UTF-8 byte
count) is modelled by `utf8Len`.  Fallible operations return `Except`.
The external index is modelled as a record of fallible read operations.
-/

namespace Ordinals

/-- UTF-8 encoded size in bytes of one character (model of Rust's per-char
byte count underlying `str::len`). -/
def charSize (c : Char) : Nat :=
  if c.toNat < 128 then 1
  else if c.toNat < 2048 then 2
  else if c.toNat < 65536 then 3
  else 4

/-- Byte length of a string, as Rust's `str::len` reports it. -/
def utf8Len (s : List Char) : Nat :=
  (s.map charSize).sum

/-- ASCII hex digit, as accepted by `BlockHash` hex decoding and by the
POSIX class `[[:xdigit:]]`. -/
def isHexDigitChar (c : Char) : Bool :=
  (48 ≤ c.toNat && c.toNat ≤ 57) ||
  (97 ≤ c.toNat && c.toNat ≤ 102) ||
  (65 ≤ c.toNat && c.toNat ≤ 70)

/-- ASCII decimal digit, the class accepted by Rust's `u64::from_str`. -/
def isAsciiDigitChar (c : Char) : Bool :=
  48 ≤ c.toNat && c.toNat ≤ 57

/-- Inclusive code-point ranges of Unicode's decimal-digit general
category Nd (Unicode 14.0.0): the class matched by the regex crate's
default Unicode-aware `\d`. -/
def ndRanges : List (Nat × Nat) :=
  [(48, 57), (1632, 1641), (1776, 1785), (1984, 1993), (2406, 2415),
   (2534, 2543), (2662, 2671), (2790, 2799), (2918, 2927), (3046, 3055),
   (3174, 3183), (3302, 3311), (3430, 3439), (3558, 3567), (3664, 3673),
   (3792, 3801), (3872, 3881), (4160, 4169), (4240, 4249), (6112, 6121),
   (6160, 6169), (6470, 6479), (6608, 6617), (6784, 6793), (6800, 6809),
   (6992, 7001), (7088, 7097), (7232, 7241), (7248, 7257), (42528, 42537),
   (43216, 43225), (43264, 43273), (43472, 43481), (43504, 43513),
   (43600, 43609), (44016, 44025), (65296, 65305), (66720, 66729),
   (68912, 68921), (69734, 69743), (69872, 69881), (69942, 69951),
   (70096, 70105), (70384, 70393), (70736, 70745), (70864, 70873),
   (71248, 71257), (71360, 71369), (71472, 71481), (71904, 71913),
   (72016, 72025), (72784, 72793), (73040, 73049), (73120, 73129),
   (92768, 92777), (92864, 92873), (93008, 93017), (120782, 120831),
   (123200, 123209), (123632, 123641), (125264, 125273), (130032, 130041)]

/-- Unicode decimal digit (general category Nd), as matched by `\d` in
the `regex` crate with its default Unicode support. -/
def isUnicodeDigit (c : Char) : Bool :=
  ndRanges.any (fun r => r.1 ≤ c.toNat && c.toNat ≤ r.2)

/-- Value of a list of ASCII decimal digits, most significant first. -/
def digitsToNat (s : List Char) : Nat :=
  s.foldl (fun a c => a * 10 + (c.toNat - 48)) 0

/-- Rust's integer parsing strips one optional leading plus sign. -/
def stripPlusSign (s : List Char) : List Char :=
  match s with
  | c :: rest => if c = '+' then rest else s
  | [] => s

/-- Model of `u64::from_str`: an optional leading plus sign followed by at
least one ASCII decimal digit, with the value below `2 ^ 64`.  Only a
wholly empty input gets the empty-string message; a lone sign is an
invalid digit, as in Rust. -/
def u64FromStr (s : List Char) : Except String Nat :=
  if s.isEmpty then .error "cannot parse integer from empty string"
  else if (stripPlusSign s).isEmpty then .error "invalid digit found in string"
  else if !(stripPlusSign s).all isAsciiDigitChar then .error "invalid digit found in string"
  else if digitsToNat (stripPlusSign s) < 2 ^ 64 then .ok (digitsToNat (stripPlusSign s))
  else .error "number too large to fit in target type"

/-- Model of `BlockHash::from_str` (hex decoding of a 32-byte hash):
succeeds exactly on 64 hex characters, and retains the hex string. -/
def blockHashFromStr (s : List Char) : Except String (List Char) :=
  if s.length = 64 && s.all isHexDigitChar then .ok s
  else .error "bad hex string length or digit"

/-- `BlockQuery` from `server.rs`: either a height or a block hash. -/
inductive BlockQuery where
  | height (h : Nat)
  | hash (h : List Char)
  deriving DecidableEq

/-- `BlockQuery::from_str`: a string of byte length 64 is parsed as a block
hash, anything else as a `u64` height. -/
def blockQueryFromStr (s : List Char) : Except String BlockQuery :=
  if utf8Len s = 64 then (blockHashFromStr s).map .hash
  else (u64FromStr s).map .height

/-- The three categories of `ServerError` from `server.rs`. -/
inductive ServerError where
  | internal (cause : String)
  | notFound (message : String)
  | badRequest (message : String)
  deriving DecidableEq

/-- Modelled from the spec: the path-extractor adapter
(`deserialize_from_str`, declared but not present in the sources) surfaces
a `FromStr` failure as a `BadRequest`-class error before the handler runs. -/
def blockQueryExtract (s : List Char) : Except ServerError BlockQuery :=
  match blockQueryFromStr s with
  | .ok q => .ok q
  | .error e => .error (.badRequest ("Invalid URL: " ++ e))

/-- `impl IntoResponse for ServerError`: status code and body text.
`"Internal Server Error"` and `"OK"` are the canonical reason phrases
returned by `StatusCode::canonical_reason`. -/
def ServerError.into_response : ServerError → Nat × String
  | .internal _ => (500, "Internal Server Error")
  | .notFound m => (404, m)
  | .badRequest m => (400, m)

/-- A transaction output; only its value is relevant to the serving layer. -/
structure TxOut where
  value : Nat
  deriving DecidableEq

/-- A transaction as the output handler sees it: its list of outputs. -/
structure Tx where
  output : List TxOut
  deriving DecidableEq

/-- The index access facade: the read operations `server.rs` calls, each
fallible.  One `Index` value is one snapshot of the external index. -/
structure Index where
  block_header : List Char → Except String (Option Unit)
  get_transaction : List Char → Except String (Option Tx)
  has_satoshi_index : Except String Bool
  list : List Char × Nat → Except String (Option (List (Nat × Nat)))
  is_reorged : Bool

/-- Unicode White_Space, the class trimmed by Rust's `str::trim`. -/
def isRustWhitespace (c : Char) : Bool :=
  let n := c.toNat
  (9 ≤ n && n ≤ 13) || n = 32 || n = 133 || n = 160 || n = 5760 ||
  (8192 ≤ n && n ≤ 8202) || n = 8232 || n = 8233 || n = 8239 ||
  n = 8287 || n = 12288

/-- Model of `str::trim`: drop whitespace from both ends. -/
def rustTrim (s : List Char) : List Char :=
  ((s.dropWhile isRustWhitespace).reverse.dropWhile isRustWhitespace).reverse

/-- The `HASH` regex of `search_inner`: `^[[:xdigit:]]{64}$`. -/
def hashRegexMatch (s : List Char) : Bool :=
  s.length = 64 && s.all isHexDigitChar

/-- The `OUTPOINT` regex of `search_inner`: `^[[:xdigit:]]{64}:\d+$`,
with `\d` the Unicode decimal-digit class (the regex crate's default). -/
def outpointRegexMatch (s : List Char) : Bool :=
  (s.take 64).length = 64 && (s.take 64).all isHexDigitChar &&
    (match s.drop 64 with
     | ':' :: ds => !ds.isEmpty && ds.all isUnicodeDigit
     | _ => false)

/-- An HTTP redirect response.  `axum`'s `Redirect::to` produces status
303 See Other with the given location, as asserted by this repository's
own tests (`assert_redirect` expects `StatusCode::SEE_OTHER`). -/
structure Redirect where
  status : Nat
  location : List Char
  deriving DecidableEq

/-- Model of `axum::response::Redirect::to`. -/
def Redirect.to (uri : List Char) : Redirect :=
  { status := 303, location := uri }

/-- `Server::search_inner`: trim, then classify by the two regexes; only a
hash-shaped query probes the index. -/
def search_inner (index : Index) (query : List Char) : Except ServerError Redirect :=
  let q := rustTrim query
  if hashRegexMatch q then
    match index.block_header q with
    | .error e =>
        .error (.internal ("failed to retrieve block from index: " ++ e))
    | .ok (some _) => .ok (Redirect.to ("/block/".data ++ q))
    | .ok none => .ok (Redirect.to ("/tx/".data ++ q))
  else if outpointRegexMatch q then
    .ok (Redirect.to ("/output/".data ++ q))
  else
    .ok (Redirect.to ("/sat/".data ++ q))

/-- `Server::search` merely delegates to `search_inner`. -/
def search (index : Index) (query : List Char) : Except ServerError Redirect :=
  search_inner index query

/-- Display form of an `OutPoint`: `txid:vout`. -/
def outpointDisplay (o : List Char × Nat) : String :=
  String.mk o.1 ++ ":" ++ toString o.2

/-- View model assembled by the output handler (`OutputHtml` minus the
rendering-only chain field). -/
structure OutputHtml where
  outpoint : List Char × Nat
  list : Option (List (Nat × Nat))
  output : TxOut
  deriving DecidableEq

/-- `Server::output`: look up the transaction, index into its outputs,
then optionally attach the sat-range listing; paired with the sat-index
flag consulted by `.page`. -/
def output (index : Index) (outpoint : List Char × Nat) :
    Except ServerError (OutputHtml × Bool) :=
  match index.get_transaction outpoint.1 with
  | .error e => .error (.internal e)
  | .ok none =>
      .error (.notFound ("output " ++ outpointDisplay outpoint ++ " unknown"))
  | .ok (some tx) =>
      match tx.output.get? outpoint.2 with
      | none =>
          .error (.notFound ("output " ++ outpointDisplay outpoint ++ " unknown"))
      | some out =>
          match index.has_satoshi_index with
          | .error e => .error (.internal e)
          | .ok true =>
              match index.list outpoint with
              | .error e => .error (.internal e)
              | .ok none =>
                  .error
                    (.notFound ("output " ++ outpointDisplay outpoint ++ " unknown"))
              | .ok (some ranges) =>
                  match index.has_satoshi_index with
                  | .error e => .error (.internal e)
                  | .ok b =>
                      .ok ({ outpoint := outpoint, list := some ranges,
                             output := out }, b)
          | .ok false =>
              match index.has_satoshi_index with
              | .error e => .error (.internal e)
              | .ok b =>
                  .ok ({ outpoint := outpoint, list := none, output := out }, b)

/-- `Server::range`: reject `start == end` and `start > end` with distinct
messages, otherwise build the range page (whose `.page` call consults the
sat-index flag). -/
def range (index : Index) (start : Nat) (stop : Nat) :
    Except ServerError ((Nat × Nat) × Bool) :=
  match compare start stop with
  | .eq => .error (.badRequest "empty range")
  | .gt => .error (.badRequest "range start greater than range end")
  | .lt =>
      match index.has_satoshi_index with
      | .error e => .error (.internal e)
      | .ok b => .ok ((start, stop), b)

/-- `Server::status`: always 200, body depending on the reorg flag. -/
def status (index : Index) : Nat × String :=
  if index.is_reorged then
    (200, "reorg detected, please rebuild the database.")
  else
    (200, "OK")

/-- Rust's `Result::and`, as used on the pair of listener task results. -/
def resultAnd {E A B : Type} : Except E A → Except E B → Except E B
  | .error e, _ => .error e
  | .ok _, b => b

/-- The error produced by `Server::run`: a task-join failure or a serve
(I/O) failure. -/
inductive RunError where
  | join (e : String)
  | io (e : String)
  deriving DecidableEq

/-- The result combination `http_result.and(https_result)??` performed by
`Server::run` after `tokio::join!` has waited for both listener tasks:
each task yields `Result<io::Result<()>, JoinError>`. -/
def joinListenerResults (httpResult httpsResult : Except String (Except String Unit)) :
    Except RunError Unit :=
  match resultAnd httpResult httpsResult with
  | .error e => .error (.join e)
  | .ok (.error e) => .error (.io e)
  | .ok (.ok _) => .ok ()

/-- The `Server` subcommand's listener configuration flags. -/
structure Server where
  http_port_opt : Option Nat
  https_port_opt : Option Nat
  http : Bool
  https : Bool
  deriving DecidableEq

/-- `Server::http_port`. -/
def Server.http_port (s : Server) : Option Nat :=
  if s.http || s.http_port_opt.isSome || (s.https_port_opt.isNone && !s.https) then
    some (s.http_port_opt.getD 80)
  else
    none

/-- `Server::https_port`. -/
def Server.https_port (s : Server) : Option Nat :=
  if s.https || s.https_port_opt.isSome then some (s.https_port_opt.getD 443)
  else none

/-- An inscription: optional content type and optional content bytes. -/
structure Inscription where
  content_type : Option (List Char)
  content : Option (List Char)
  deriving DecidableEq

/-- `HomeHtml` from `templates/home.rs`. -/
structure HomeHtml where
  last : Nat
  blocks : List (List Char)
  starting_sat : Option Nat
  inscriptions : List (Inscription × List Char)
  deriving DecidableEq

/-- `HomeHtml::new`.  `Height::starting_sat` is not among the sources;
modelled from the spec: the spec only says heights derive secondary values
by pure arithmetic, so the map from a height to its starting sat is taken
as a parameter `starting_sat_of`. -/
def HomeHtml.new (starting_sat_of : Nat → Nat)
    (blocks : List (Nat × List Char))
    (inscriptions : List (Inscription × List Char)) : HomeHtml :=
  { starting_sat := (blocks.get? 0).map (fun p => starting_sat_of p.1)
    last := ((blocks.get? 0).map Prod.fst).getD 0
    blocks := blocks.map Prod.snd
    inscriptions := inscriptions }

/-! Concrete index snapshots used to evaluate the handlers. -/

/-- An index that knows nothing: every lookup succeeds with no value. -/
def emptyIndex : Index :=
  { block_header := fun _ => .ok none
    get_transaction := fun _ => .ok none
    has_satoshi_index := .ok false
    list := fun _ => .ok none
    is_reorged := false }

/-- An index whose block-header lookup always finds a header. -/
def knownBlockIndex : Index :=
  { emptyIndex with block_header := fun _ => .ok (some ()) }

/-- An index holding one transaction with no outputs. -/
def singleTxIndex : Index :=
  { emptyIndex with get_transaction := fun _ => .ok (some { output := [] }) }

/-- A 64-hex-character query string. -/
def hash64Query : List Char := List.replicate 64 'a'

/-- An outpoint-shaped query string: 64 hex characters, a colon, a digit. -/
def outpointQuery : List Char := hash64Query ++ [':', '0']

/-! Helper lemmas about characters, byte lengths and integer parsing. -/

theorem hexChar_lt128 {c : Char} (h : isHexDigitChar c = true) : c.toNat < 128 := by
  unfold isHexDigitChar at h
  simp only [Bool.or_eq_true, Bool.and_eq_true, decide_eq_true_eq] at h
  omega

theorem digitChar_lt128 {c : Char} (h : isAsciiDigitChar c = true) : c.toNat < 128 := by
  unfold isAsciiDigitChar at h
  simp only [Bool.and_eq_true, decide_eq_true_eq] at h
  omega

theorem charSize_of_ascii {c : Char} (h : c.toNat < 128) : charSize c = 1 := by
  simp [charSize, h]

theorem utf8Len_eq_length {s : List Char} (h : ∀ c ∈ s, c.toNat < 128) :
    utf8Len s = s.length := by
  induction s with
  | nil => rfl
  | cons a t ih =>
    have ha : charSize a = 1 := charSize_of_ascii (h a (by simp))
    have ht : utf8Len t = t.length := ih (fun c hc => h c (by simp [hc]))
    simp only [utf8Len, List.map_cons, List.sum_cons, List.length_cons] at *
    omega

theorem u64FromStr_ok_digits {s : List Char} {n : Nat} (h : u64FromStr s = .ok n) :
    (stripPlusSign s).all isAsciiDigitChar = true := by
  unfold u64FromStr at h
  split_ifs at h with h1 h2 h3 h4
  simpa using h3

theorem u64FromStr_ok_ascii {s : List Char} {n : Nat} (h : u64FromStr s = .ok n) :
    ∀ c ∈ s, c.toNat < 128 := by
  have hall := u64FromStr_ok_digits h
  intro c hc
  cases s with
  | nil => simp at hc
  | cons a t =>
    by_cases ha : a = '+'
    · subst ha
      rw [show stripPlusSign ('+' :: t) = t by simp [stripPlusSign]] at hall
      rcases List.mem_cons.mp hc with rfl | hct
      · decide
      · exact digitChar_lt128 (List.all_eq_true.mp hall c hct)
    · rw [show stripPlusSign (a :: t) = a :: t by simp [stripPlusSign, ha]] at hall
      exact digitChar_lt128 (List.all_eq_true.mp hall c hc)

/-! Helper lemmas about trimming. -/

theorem dropWhile_head?_not {p : Char → Bool} {l : List Char} {c : Char}
    (h : (l.dropWhile p).head? = some c) : p c = false := by
  induction l with
  | nil => simp [List.dropWhile] at h
  | cons a t ih =>
    by_cases hpa : p a = true
    · rw [List.dropWhile_cons_of_pos hpa] at h
      exact ih h
    · rw [List.dropWhile_cons_of_neg hpa] at h
      simp only [List.head?_cons, Option.some.injEq] at h
      subst h
      simpa using hpa

theorem dropWhile_eq_self_of_head {p : Char → Bool} {l : List Char}
    (h : ∀ c, l.head? = some c → p c = false) : l.dropWhile p = l := by
  cases l with
  | nil => rfl
  | cons a t =>
    have : p a = false := h a rfl
    rw [List.dropWhile_cons_of_neg (by simp [this])]

theorem rustTrim_head?_not {s : List Char} {c : Char}
    (h : (rustTrim s).head? = some c) : isRustWhitespace c = false := by
  unfold rustTrim at h
  rw [List.head?_reverse] at h
  set A := s.dropWhile isRustWhitespace with hA
  set B := A.reverse.dropWhile isRustWhitespace with hB
  have hsplit : A.reverse.takeWhile isRustWhitespace ++ B = A.reverse := by
    rw [hB]
    exact List.takeWhile_append_dropWhile isRustWhitespace A.reverse
  have hBne : B ≠ [] := by
    intro hnil
    rw [hnil] at h
    simp at h
  have h1 : B.getLast? = A.reverse.getLast? := by
    conv_rhs => rw [← hsplit]
    exact (List.getLast?_append_of_ne_nil _ hBne).symm
  rw [h1, List.getLast?_reverse] at h
  exact dropWhile_head?_not h

theorem rustTrim_getLast?_not {s : List Char} {c : Char}
    (h : (rustTrim s).getLast? = some c) : isRustWhitespace c = false := by
  unfold rustTrim at h
  rw [List.getLast?_reverse] at h
  exact dropWhile_head?_not h

theorem rustTrim_idem (s : List Char) : rustTrim (rustTrim s) = rustTrim s := by
  have h1 : (rustTrim s).dropWhile isRustWhitespace = rustTrim s :=
    dropWhile_eq_self_of_head (fun c hc => rustTrim_head?_not hc)
  have h2 : (rustTrim s).reverse.dropWhile isRustWhitespace = (rustTrim s).reverse := by
    refine dropWhile_eq_self_of_head (fun c hc => ?_)
    rw [List.head?_reverse] at hc
    exact rustTrim_getLast?_not hc
  show (((rustTrim s).dropWhile isRustWhitespace).reverse.dropWhile
          isRustWhitespace).reverse = rustTrim s
  rw [h1, h2, List.reverse_reverse]

/-! Claim theorems. -/

/-- C2: for every pair of parsed Sat values, the range handler rejects
`start == end` with BadRequest "empty range", rejects `start > end` with
BadRequest "range start greater than range end", and succeeds with the
range page whenever `start < end` (and the facade flag read succeeds);
the two invalid orderings produce distinct, user-visible errors. -/
theorem range_validation (index : Index) (start stop : Nat) :
    (start = stop → range index start stop = .error (.badRequest "empty range")) ∧
    (stop < start →
      range index start stop =
        .error (.badRequest "range start greater than range end")) ∧
    (∀ b, index.has_satoshi_index = .ok b → start < stop →
      range index start stop = .ok ((start, stop), b)) := by
  refine ⟨?_, ?_, ?_⟩
  · rintro rfl
    unfold range
    rw [show compare start start = Ordering.eq by
      simp [Nat.compare_eq_eq]]
  · intro hlt
    unfold range
    rw [show compare start stop = Ordering.gt by
      simp [Nat.compare_eq_gt]; omega]
  · intro b hb hlt
    unfold range
    rw [show compare start stop = Ordering.lt by
      simp [Nat.compare_eq_lt]; omega]
    rw [hb]

/-- Witness for C2 at concrete inputs. -/
theorem range_validation_witness :
    range emptyIndex 5 5 = .error (.badRequest "empty range") ∧
    range emptyIndex 6 5 = .error (.badRequest "range start greater than range end") ∧
    range emptyIndex 5 6 = .ok ((5, 6), false) :=
  ⟨(range_validation emptyIndex 5 5).1 rfl,
   (range_validation emptyIndex 6 5).2.1 (by omega),
   (range_validation emptyIndex 5 6).2.2 false rfl (by omega)⟩

/-- C4 counterexample: `Server::run` combines the two listener task
results as `http_result.and(https_result)??`, so with both listeners
configured an HTTPS serve failure alone already yields an error (the HTTP
task finished successfully), and conversely an HTTP serve failure alone is
discarded — refuting "returns an error only if both listener tasks
fail". -/
theorem run_error_not_only_when_both_fail :
    joinListenerResults (.ok (.ok ())) (.ok (.error "https serve failure")) =
      .error (.io "https serve failure") ∧
    joinListenerResults (.ok (.error "http serve failure")) (.ok (.ok ())) =
      .ok () :=
  ⟨rfl, rfl⟩

/-- C4 amended: when both listeners are configured they are spawned
concurrently on the same router and their results are combined only after
both tasks complete; `run` succeeds exactly when the HTTP task did not
panic (its serve result is discarded) and the HTTPS task completed with a
successful serve result. -/
theorem run_result_combination
    (httpResult httpsResult : Except String (Except String Unit)) :
    joinListenerResults httpResult httpsResult = .ok () ↔
      ((∃ inner, httpResult = .ok inner) ∧ httpsResult = .ok (.ok ())) := by
  cases httpResult with
  | error e => simp [joinListenerResults, resultAnd]
  | ok a =>
    cases httpsResult with
    | error e => simp [joinListenerResults, resultAnd]
    | ok b =>
      cases b with
      | error e => simp [joinListenerResults, resultAnd]
      | ok u => cases u; simp [joinListenerResults, resultAnd]

/-- C5: the error-to-response mapping is exhaustive over the three
categories and deterministic: `Internal` always maps to 500 with the
generic reason phrase (identical for every cause, no internal detail),
`NotFound` to 404 with the message verbatim, `BadRequest` to 400 with the
message verbatim. -/
theorem server_error_response_mapping :
    (∀ cause, (ServerError.internal cause).into_response =
      (500, "Internal Server Error")) ∧
    (∀ c1 c2, (ServerError.internal c1).into_response =
      (ServerError.internal c2).into_response) ∧
    (∀ m, (ServerError.notFound m).into_response = (404, m)) ∧
    (∀ m, (ServerError.badRequest m).into_response = (400, m)) :=
  ⟨fun _ => rfl, fun _ _ => rfl, fun _ => rfl, fun _ => rfl⟩

/-- C6: when the transaction exists in the index but the requested vout
index is at or beyond its output count, the output handler fails with
NotFound (404), never Internal (500). -/
theorem output_oob_vout_not_found (index : Index) (txid : List Char)
    (vout : Nat) (tx : Tx)
    (h1 : index.get_transaction txid = .ok (some tx))
    (h2 : tx.output.length ≤ vout) :
    output index (txid, vout) =
      .error (.notFound ("output " ++ outpointDisplay (txid, vout) ++ " unknown")) := by
  unfold output
  simp only [h1, List.get?_eq_none.mpr h2]

/-- Witness for C6 at a concrete index holding an output-less transaction. -/
theorem output_oob_vout_not_found_witness :
    output singleTxIndex ("ab".data, 0) =
      .error (.notFound ("output " ++ outpointDisplay ("ab".data, 0) ++ " unknown")) :=
  output_oob_vout_not_found singleTxIndex "ab".data 0 { output := [] } rfl
    (Nat.le_refl 0)

/-- C7: for every index state, the status handler returns HTTP 200, with
body "OK" when the reorg flag is false and the distinct reorg-detected
message when it is true; the status is never non-200 for this condition. -/
theorem status_always_200 (index : Index) :
    (status index).1 = 200 ∧
    (status index).2 =
      (if index.is_reorged then "reorg detected, please rebuild the database."
       else "OK") := by
  unfold status
  by_cases h : index.is_reorged <;> simp [h]

/-- C9: listener derivation — HTTPS-only configuration yields no plain
listener; `--http` together with `--https` without explicit ports yields
ports 80 and 443; a wholly default configuration yields a plain listener
on port 80. -/
theorem listener_port_derivation (s : Server) :
    (s.http = false → s.http_port_opt = none →
      (s.https_port_opt.isSome = true ∨ s.https = true) → s.http_port = none) ∧
    (s.http = true → s.https = true → s.http_port_opt = none →
      s.https_port_opt = none →
      s.http_port = some 80 ∧ s.https_port = some 443) ∧
    (s.http = false → s.https = false → s.http_port_opt = none →
      s.https_port_opt = none → s.http_port = some 80) := by
  refine ⟨?_, ?_, ?_⟩
  · intro h1 h2 h3
    rcases h3 with h3 | h3
    · rcases Option.isSome_iff_exists.mp h3 with ⟨p, hp⟩
      simp [Server.http_port, h1, h2, hp]
    · simp [Server.http_port, h1, h2, h3]
  · intro h1 h2 h3 h4
    constructor
    · simp [Server.http_port, h1, h3]
    · simp [Server.https_port, h2, h4]
  · intro h1 h2 h3 h4
    simp [Server.http_port, h1, h2, h3, h4]

/-- Witness for C9 at three concrete configurations. -/
theorem listener_port_derivation_witness :
    (Server.mk none (some 443) false false).http_port = none ∧
    ((Server.mk none none true true).http_port = some 80 ∧
      (Server.mk none none true true).https_port = some 443) ∧
    (Server.mk none none false false).http_port = some 80 :=
  ⟨(listener_port_derivation (Server.mk none (some 443) false false)).1
      rfl rfl (Or.inl rfl),
   (listener_port_derivation (Server.mk none none true true)).2.1
      rfl rfl rfl rfl,
   (listener_port_derivation (Server.mk none none false false)).2.2
      rfl rfl rfl rfl⟩

/-- C10: `HomeHtml::new` is total on every blocks list: the empty list
yields last 0, no starting sat and no block hashes; a non-empty list
yields the first element's height as `last`, that height's starting sat,
and the hashes in input order, with inscriptions passed through. -/
theorem homehtml_new_total (f : Nat → Nat) (blocks : List (Nat × List Char))
    (ins : List (Inscription × List Char)) :
    (blocks = [] → HomeHtml.new f blocks ins =
      { last := 0, blocks := [], starting_sat := none, inscriptions := ins }) ∧
    (∀ h hsh rest, blocks = (h, hsh) :: rest →
      (HomeHtml.new f blocks ins).last = h ∧
      (HomeHtml.new f blocks ins).starting_sat = some (f h) ∧
      (HomeHtml.new f blocks ins).blocks = hsh :: rest.map Prod.snd ∧
      (HomeHtml.new f blocks ins).inscriptions = ins) := by
  constructor
  · rintro rfl
    rfl
  · rintro h hsh rest rfl
    exact ⟨rfl, rfl, rfl, rfl⟩

/-- Witness for C10 on the empty and a singleton blocks list. -/
theorem homehtml_new_total_witness :
    HomeHtml.new (fun h => h + 3) [] [] =
      { last := 0, blocks := [], starting_sat := none, inscriptions := [] } ∧
    ((HomeHtml.new (fun h => h + 3) [(7, "aa".data)] []).last = 7 ∧
      (HomeHtml.new (fun h => h + 3) [(7, "aa".data)] []).starting_sat = some 10 ∧
      (HomeHtml.new (fun h => h + 3) [(7, "aa".data)] []).blocks =
        "aa".data :: List.map Prod.snd ([] : List (Nat × List Char)) ∧
      (HomeHtml.new (fun h => h + 3) [(7, "aa".data)] []).inscriptions = []) :=
  ⟨(homehtml_new_total (fun h => h + 3) [] []).1 rfl,
   (homehtml_new_total (fun h => h + 3) [(7, "aa".data)] []).2 7 "aa".data [] rfl⟩

/-- C1: `BlockQuery` parsing is decided purely by input length — a
64-character input is interpreted as a block hash, succeeding exactly
when it is 64 hex characters (and never as a height); any other length is
interpreted as a non-negative integer height (and never as a hash); and a
failed parse is surfaced as BadRequest.  The parser takes no index. -/
theorem blockquery_parse_by_length (s : List Char) :
    (s.length = 64 →
      ((∃ h, blockQueryFromStr s = .ok (.hash h)) ↔ s.all isHexDigitChar = true) ∧
      (∀ n, blockQueryFromStr s ≠ .ok (.height n))) ∧
    (s.length ≠ 64 →
      ((∃ n, blockQueryFromStr s = .ok (.height n)) ↔ ∃ n, u64FromStr s = .ok n) ∧
      (∀ h, blockQueryFromStr s ≠ .ok (.hash h))) ∧
    (∀ e, blockQueryFromStr s = .error e →
      blockQueryExtract s = .error (.badRequest ("Invalid URL: " ++ e))) := by
  refine ⟨?_, ?_, ?_⟩
  · intro hlen
    constructor
    · constructor
      · rintro ⟨h, hh⟩
        by_cases hu : utf8Len s = 64
        · unfold blockQueryFromStr at hh
          rw [if_pos hu] at hh
          unfold blockHashFromStr at hh
          by_cases hc : (s.length = 64 && s.all isHexDigitChar) = true
          · simp only [Bool.and_eq_true, decide_eq_true_eq] at hc
            exact hc.2
          · rw [if_neg hc] at hh
            simp [Except.map] at hh
        · unfold blockQueryFromStr at hh
          rw [if_neg hu] at hh
          cases hc : u64FromStr s with
          | ok m => rw [hc] at hh; simp [Except.map] at hh
          | error e => rw [hc] at hh; simp [Except.map] at hh
      · intro hall
        have hascii : ∀ c ∈ s, c.toNat < 128 := fun c hc =>
          hexChar_lt128 (List.all_eq_true.mp hall c hc)
        have hu : utf8Len s = 64 := by
          rw [utf8Len_eq_length hascii]; exact hlen
        refine ⟨s, ?_⟩
        unfold blockQueryFromStr
        rw [if_pos hu]
        unfold blockHashFromStr
        rw [if_pos (by simp [hlen, hall])]
        rfl
    · intro n hn
      by_cases hu : utf8Len s = 64
      · unfold blockQueryFromStr at hn
        rw [if_pos hu] at hn
        cases hb : blockHashFromStr s with
        | ok v => rw [hb] at hn; simp [Except.map] at hn
        | error e => rw [hb] at hn; simp [Except.map] at hn
      · unfold blockQueryFromStr at hn
        rw [if_neg hu] at hn
        cases hc : u64FromStr s with
        | error e => rw [hc] at hn; simp [Except.map] at hn
        | ok m =>
          exact hu (by rw [utf8Len_eq_length (u64FromStr_ok_ascii hc)]; exact hlen)
  · intro hlen
    constructor
    · constructor
      · rintro ⟨n, hn⟩
        by_cases hu : utf8Len s = 64
        · unfold blockQueryFromStr at hn
          rw [if_pos hu] at hn
          cases hb : blockHashFromStr s with
          | ok v => rw [hb] at hn; simp [Except.map] at hn
          | error e => rw [hb] at hn; simp [Except.map] at hn
        · unfold blockQueryFromStr at hn
          rw [if_neg hu] at hn
          cases hc : u64FromStr s with
          | ok m => exact ⟨m, rfl⟩
          | error e => rw [hc] at hn; simp [Except.map] at hn
      · rintro ⟨n, hn⟩
        have hu : ¬ utf8Len s = 64 := by
          rw [utf8Len_eq_length (u64FromStr_ok_ascii hn)]
          exact hlen
        refine ⟨n, ?_⟩
        unfold blockQueryFromStr
        rw [if_neg hu, hn]
        rfl
    · intro h hh
      by_cases hu : utf8Len s = 64
      · unfold blockQueryFromStr at hh
        rw [if_pos hu] at hh
        unfold blockHashFromStr at hh
        rw [if_neg (by simp [hlen])] at hh
        simp [Except.map] at hh
      · unfold blockQueryFromStr at hh
        rw [if_neg hu] at hh
        cases hc : u64FromStr s with
        | ok m => rw [hc] at hh; simp [Except.map] at hh
        | error e => rw [hc] at hh; simp [Except.map] at hh
  · intro e he
    unfold blockQueryExtract
    rw [he]

/-- Witness for C1: a 64-hex string parses as a hash, a short digit
string parses as a height, a malformed string surfaces BadRequest. -/
theorem blockquery_parse_by_length_witness :
    (∃ h, blockQueryFromStr hash64Query = .ok (.hash h)) ∧
    (∃ n, blockQueryFromStr "123".data = .ok (.height n)) ∧
    blockQueryExtract "12x".data =
      .error (.badRequest ("Invalid URL: " ++ "invalid digit found in string")) :=
  ⟨((blockquery_parse_by_length hash64Query).1 (by decide)).1.mpr (by decide),
   ((blockquery_parse_by_length "123".data).2.1 (by decide)).1.mpr ⟨123, by rfl⟩,
   (blockquery_parse_by_length "12x".data).2.2 "invalid digit found in string"
     (by rfl)⟩

/-- C3: search classification is total and deterministic on the trimmed
query — a 64-hex query with a known block header redirects to the block
resource, a 64-hex query with no known block to the transaction resource,
an outpoint-shaped query to the output resource, anything else to the sat
resource; only the 64-hex case consults the index; and a query behaves
identically to its trimmed form. -/
theorem search_classification (index : Index) (query : List Char) :
    (hashRegexMatch (rustTrim query) = true →
      index.block_header (rustTrim query) = .ok (some ()) →
      search_inner index query =
        .ok (Redirect.to ("/block/".data ++ rustTrim query))) ∧
    (hashRegexMatch (rustTrim query) = true →
      index.block_header (rustTrim query) = .ok none →
      search_inner index query =
        .ok (Redirect.to ("/tx/".data ++ rustTrim query))) ∧
    (hashRegexMatch (rustTrim query) = false →
      outpointRegexMatch (rustTrim query) = true →
      search_inner index query =
        .ok (Redirect.to ("/output/".data ++ rustTrim query))) ∧
    (hashRegexMatch (rustTrim query) = false →
      outpointRegexMatch (rustTrim query) = false →
      search_inner index query =
        .ok (Redirect.to ("/sat/".data ++ rustTrim query))) ∧
    (hashRegexMatch (rustTrim query) = false →
      ∀ index2, search_inner index query = search_inner index2 query) ∧
    search_inner index query = search_inner index (rustTrim query) := by
  refine ⟨?_, ?_, ?_, ?_, ?_, ?_⟩
  · intro hm hb
    simp only [search_inner]
    rw [if_pos hm, hb]
  · intro hm hb
    simp only [search_inner]
    rw [if_pos hm, hb]
  · intro hm ho
    simp only [search_inner]
    rw [if_neg (by simp [hm]), if_pos ho]
  · intro hm ho
    simp only [search_inner]
    rw [if_neg (by simp [hm]), if_neg (by simp [ho])]
  · intro hm index2
    simp [search_inner, hm]
  · simp only [search_inner]
    rw [rustTrim_idem]

/-- Witness for C3 at concrete queries: a known 64-hex block, an unknown
64-hex hash, an outpoint, and a whitespace-padded sat query. -/
theorem search_classification_witness :
    search_inner knownBlockIndex hash64Query =
      .ok (Redirect.to ("/block/".data ++ rustTrim hash64Query)) ∧
    search_inner emptyIndex hash64Query =
      .ok (Redirect.to ("/tx/".data ++ rustTrim hash64Query)) ∧
    search_inner emptyIndex outpointQuery =
      .ok (Redirect.to ("/output/".data ++ rustTrim outpointQuery)) ∧
    search_inner emptyIndex " 0 ".data =
      .ok (Redirect.to ("/sat/".data ++ rustTrim " 0 ".data)) ∧
    search_inner emptyIndex " 0 ".data = search_inner knownBlockIndex " 0 ".data ∧
    search_inner emptyIndex " 0 ".data =
      search_inner emptyIndex (rustTrim " 0 ".data) :=
  ⟨(search_classification knownBlockIndex hash64Query).1 (by decide) rfl,
   (search_classification emptyIndex hash64Query).2.1 (by decide) rfl,
   (search_classification emptyIndex outpointQuery).2.2.1 (by decide) (by decide),
   (search_classification emptyIndex " 0 ".data).2.2.2.1 (by decide) (by decide),
   (search_classification emptyIndex " 0 ".data).2.2.2.2.1 (by decide)
     knownBlockIndex,
   (search_classification emptyIndex " 0 ".data).2.2.2.2.2⟩

/-- C8 counterexample: a successful search response has status 303 (See
Other), not 302, as the repository's own tests assert
(`assert_redirect` expects `StatusCode::SEE_OTHER`). -/
theorem search_redirect_status_not_302 :
    search emptyIndex "0".data = .ok (Redirect.mk 303 "/sat/0".data) ∧
    (303 : Nat) ≠ 302 :=
  ⟨rfl, by decide⟩

/-- C8 amended: every successful response from the search endpoints is an
HTTP 303 redirect to the classified canonical resource path (block,
transaction, output or sat, for the trimmed query). -/
theorem search_success_is_redirect_303 (index : Index) (query : List Char)
    (r : Redirect) (h : search index query = .ok r) :
    r.status = 303 ∧
    (r.location = "/block/".data ++ rustTrim query ∨
     r.location = "/tx/".data ++ rustTrim query ∨
     r.location = "/output/".data ++ rustTrim query ∨
     r.location = "/sat/".data ++ rustTrim query) := by
  unfold search at h
  simp only [search_inner] at h
  by_cases h1 : hashRegexMatch (rustTrim query) = true
  · rw [if_pos h1] at h
    cases hb : index.block_header (rustTrim query) with
    | error e =>
      rw [hb] at h
      simp at h
    | ok o =>
      rw [hb] at h
      cases o with
      | some u =>
        simp only [Except.ok.injEq] at h
        subst h
        exact ⟨rfl, Or.inl rfl⟩
      | none =>
        simp only [Except.ok.injEq] at h
        subst h
        exact ⟨rfl, Or.inr (Or.inl rfl)⟩
  · rw [if_neg h1] at h
    by_cases h2 : outpointRegexMatch (rustTrim query) = true
    · rw [if_pos h2] at h
      simp only [Except.ok.injEq] at h
      subst h
      exact ⟨rfl, Or.inr (Or.inr (Or.inl rfl))⟩
    · rw [if_neg h2] at h
      simp only [Except.ok.injEq] at h
      subst h
      exact ⟨rfl, Or.inr (Or.inr (Or.inr rfl))⟩

/-- Witness for the amended C8 at a concrete sat query. -/
theorem search_success_is_redirect_303_witness :
    (Redirect.mk 303 "/sat/0".data).status = 303 ∧
    ((Redirect.mk 303 "/sat/0".data).location = "/block/".data ++ rustTrim "0".data ∨
     (Redirect.mk 303 "/sat/0".data).location = "/tx/".data ++ rustTrim "0".data ∨
     (Redirect.mk 303 "/sat/0".data).location = "/output/".data ++ rustTrim "0".data ∨
     (Redirect.mk 303 "/sat/0".data).location = "/sat/".data ++ rustTrim "0".data) :=
  search_success_is_redirect_303 emptyIndex "0".data (Redirect.mk 303 "/sat/0".data)
    rfl

end Ordinals


